import Mathlib

/-!
EchoChamber: the client handle of package `clients`

A shallow embedding of `src/clients/clients.go`: the `Client` handle, its
constructor, `Start`, the four control operations and the four URL builders,
together with the library calls they make (`strconv.Itoa`, `json.Marshal`,
`http.NewRequest`, `Header.Set`, `http.Client.Do`, `exec.Command`,
`Cmd.Start`).

Conventions of the embedding.

* Go `string` is `String`, that is text in valid UTF-8; Go `int` is `Int` (no
  arithmetic is done on it).
* A Go `[]string` is `Option (List String)`: `none` is the nil slice.
* A Go pointer that may be nil is an `Option`. The `(*http.Response, error)`
  result of a control operation is a pair of options, as Go returns it; a
  library result `(x, err)` of which exactly one part is nil is an `Except`.
* Effects are explicit: every operation takes the `World` before the call and
  returns the `World` after it. The world records, in order, what the handle
  passed to `client.Do`, what `client.Do` handed to the HTTP transport and
  what was handed to the process spawner. What the transport and the spawner
  answer, and whether a library call fails, is given by an `Env`.
* `client.Do` is the one of Go 1.8 and later: it follows redirects under the
  default policy and returns its errors in a `*url.Error`.
-/

namespace clients

/-! ## strconv -/

namespace strconv

/-- The call `strconv.Itoa(i)`: the decimal representation of `i`, with a
leading minus sign when `i` is negative. -/
def Itoa (i : Int) : String :=
  if i < 0 then "-" ++ Nat.repr i.natAbs else Nat.repr i.toNat

end strconv

/-! ## URL builders (clients.go, lines 126-156) -/

/-- The route on which a client expects to be notified it has joined a chat. -/
def joinedUrl (port : Int) : String :=
  "http://localhost:" ++ strconv.Itoa port ++ "/joined"

/-- The route on which a client expects to be told to disconnect. -/
def disconnectUrl (port : Int) : String :=
  "http://localhost:" ++ strconv.Itoa port ++ "/disconnect"

/-- The route on which a client expects to be prompted to send a message. -/
def promptUrl (port : Int) : String :=
  "http://localhost:" ++ strconv.Itoa port ++ "/prompt"

/-- The route on which a client expects to be informed that it has received a
message. -/
def receivedUrl (port : Int) : String :=
  "http://localhost:" ++ strconv.Itoa port ++ "/received"

/-! ## Values shared by the library models -/

/-- A Go `error` value: a plain error, identified by its message, or the
`*url.Error{Op, URL, Err}` in which `client.Do` wraps the error it ends on. -/
inductive Error where
  | mk (msg : String)
  | url (Op URL : String) (Err : Error)
deriving DecidableEq, Repr

/-! ## Control messages -/

/-- Modelled from the spec: the declaration of `JoinedMessage` is not part of
clients.go. Fields, field order and JSON names are those of the spec's data
model, `JoinedMessage { identifier, participants }`. -/
structure JoinedMessage where
  Identifier : String
  Participants : Option (List String)
deriving DecidableEq, Repr

/-- Modelled from the spec: the declaration of `PromptMessage` is not part of
clients.go. Fields, field order and JSON names are those of the spec's data
model, `PromptMessage { from, to, message }`. -/
structure PromptMessage where
  From : String
  To : String
  Message : String
deriving DecidableEq, Repr

/-- Modelled from the spec: the declaration of `ReceivedMessage` is not part of
clients.go. Fields, field order and JSON names are those of the spec's data
model, `ReceivedMessage { from, message, when }`. -/
structure ReceivedMessage where
  From : String
  Message : String
  When : String
deriving DecidableEq, Repr

/-! ## encoding/json -/

namespace json

/-- The values this package passes to `json.Marshal` (its parameter has type
`interface{}`). -/
inductive Value where
  | joined (m : JoinedMessage)
  | prompt (m : PromptMessage)
  | received (m : ReceivedMessage)
deriving DecidableEq, Repr

/-- One character of a string as `encoding/json` writes it inside a string
literal, with the HTML escaping that `Marshal` applies: the quote and the
backslash are backslash-escaped, newline, carriage return and tab are written
with their letter, the other control characters and the characters
`<`, `>`, `&` as `\u00XX`, the line and paragraph separators as `\u202X`, and
every other character as itself. (Go releases differ in how they write tab,
backspace and form feed, with their letter or as `\u00XX`; this is the form of
Go 1.8 to 1.21.) -/
def escapeChar (c : Char) : List Char :=
  if c = '"' then ['\\', '"']
  else if c = '\\' then ['\\', '\\']
  else if c = '\n' then ['\\', 'n']
  else if c = '\r' then ['\\', 'r']
  else if c = '\t' then ['\\', 't']
  else if c.toNat < 0x20 ∨ c = '<' ∨ c = '>' ∨ c = '&' then
    ['\\', 'u', '0', '0', Nat.digitChar (c.toNat / 16), Nat.digitChar (c.toNat % 16)]
  else if c.toNat = 0x2028 ∨ c.toNat = 0x2029 then
    ['\\', 'u', '2', '0', '2', Nat.digitChar (c.toNat % 16)]
  else [c]

/-- A Go string as a JSON string literal. -/
def encodeString (s : String) : String :=
  "\"" ++ String.mk (s.data.map escapeChar).flatten ++ "\""

/-- A Go `[]string` as JSON: `null` for the nil slice, otherwise the array of
its elements in order. -/
def encodeStrings : Option (List String) → String
  | none => "null"
  | some l => "[" ++ ",".intercalate (l.map encodeString) ++ "]"

/-- The JSON object `encoding/json` writes for a struct: its fields in
declaration order under their JSON names. -/
def encode : Value → String
  | .joined m =>
      "\x7b\"identifier\":" ++ encodeString m.Identifier ++
        ",\"participants\":" ++ encodeStrings m.Participants ++ "\x7d"
  | .prompt m =>
      "\x7b\"from\":" ++ encodeString m.From ++ ",\"to\":" ++ encodeString m.To ++
        ",\"message\":" ++ encodeString m.Message ++ "\x7d"
  | .received m =>
      "\x7b\"from\":" ++ encodeString m.From ++ ",\"message\":" ++ encodeString m.Message ++
        ",\"when\":" ++ encodeString m.When ++ "\x7d"

end json

/-! ## net/http -/

namespace http

/-- The header of a request: canonical key and value. -/
abbrev Header := List (String × String)

/-- The call `h.Set(key, value)`: the entry for `key` is replaced by the single
value `value`. The one key this package sets, `Content-Type`, is already in
canonical form. -/
def Header.Set (h : Header) (key value : String) : Header :=
  h.filter (fun kv => kv.1 != key) ++ [(key, value)]

/-- The call `h.Get(key)`: the value stored under `key`, the empty string when
there is none. -/
def Header.Get (h : Header) (key : String) : String :=
  match h.find? (fun kv => kv.1 == key) with
  | some kv => kv.2
  | none => ""

/-- The part of an `http.Request` this package determines: method, target URL,
header and body (`none` when the request was built with a nil body). -/
structure Request where
  Method : String
  URL : String
  Header : Header
  Body : Option String
deriving DecidableEq, Repr

/-- An `http.Response` as far as a caller can inspect it here: status code,
header and body. -/
structure Response where
  StatusCode : Int
  Header : Header
  Body : String
deriving DecidableEq, Repr

end http

/-! ## os/exec -/

namespace os

/-- A running process. -/
structure Process where
  Pid : Int
deriving DecidableEq, Repr

end os

namespace exec

/-- An `exec.Cmd`: the path of the program, its argument vector (the program
name first) and the process once started. -/
structure Cmd where
  Path : String
  Args : List String
  Process : Option os.Process
deriving DecidableEq, Repr

/-- The call `exec.Command(name, arg...)`: a command that is not started, with
`Path = name` and `Args = name :: arg`. Looking `name` up in the search path is
left to the spawner of the environment. -/
def Command (name : String) (arg : List String) : Cmd :=
  { Path := name, Args := name :: arg, Process := none }

end exec

/-! ## The world outside the handle -/

/-- What the outside has been asked so far, oldest first: the requests the
handle passed to `client.Do`, the requests `client.Do` handed to the HTTP
transport (the requests of the handle and the ones that follow a redirect), and
the `(path, argv)` pairs handed to the process spawner. -/
structure World where
  requests : List http.Request
  roundTrips : List http.Request
  spawns : List (String × List String)
deriving DecidableEq, Repr

/-- The behaviour of the library and of the outside world, which the handle does
not control: whether `json.Marshal` and `http.NewRequest` fail (on success
their result is fixed by the models below); what the HTTP transport, the
default one, returns for a request: a response or an error; the request
`client.Do` builds for the next hop of a redirect from the first request, the
request just answered and its answer, or the error of resolving the `Location`
of that answer; and what the operating system returns for a spawn. The
transport and the spawner may depend on the history recorded in the world. -/
structure Env where
  marshalErr : json.Value → Option Error
  newRequestErr : String → String → Option Error
  roundTrip : World → http.Request → Except Error http.Response
  nextHop : http.Request → http.Request → http.Response → Except Error http.Request
  startProcess : World → String → List String → Except Error os.Process

/-- The world after the handle has passed the request to `client.Do`. -/
def World.withRequest (w : World) (request : http.Request) : World :=
  { w with requests := w.requests ++ [request] }

namespace json

/-- The call `json.Marshal(v)`: the encoding (with a nil error), or the error
(with no bytes). -/
def Marshal (env : Env) (v : Value) : Except Error String :=
  match env.marshalErr v with
  | some e => .error e
  | none => .ok (encode v)

end json

namespace http

/-- The call `http.NewRequest(method, url, body)`: a request with the given
method, URL and body and an empty header (with a nil error), or the error
(with no request). -/
def NewRequest (env : Env) (method url : String) (body : Option String) :
    Except Error Request :=
  match env.newRequestErr method url with
  | some e => .error e
  | none => .ok { Method := method, URL := url, Header := [], Body := body }

/-- The operation named in the `*url.Error` of `client.Do`: the method with its
first letter as it is and the others in lower case (`Post` for `POST`), `Get`
for the empty method. -/
def urlErrorOp (method : String) : String :=
  match method.data with
  | [] => "Get"
  | c :: cs => String.mk (c :: cs.map Char.toLower)

/-- Whether `client.Do` goes on to another request after a response with this
status: it does after 301, 302, 303, 307 and 308. (For 307 and 308 Go also
asks that the body can be sent again; a body built from a `bytes.Reader`, as
all bodies of this package are, can.) -/
def shouldRedirect (status : Int) : Bool :=
  status = 301 || status = 302 || status = 303 || status = 307 || status = 308

/-- What one hop of `client.Do` ends in: a result for the caller, or a redirect
to follow, with the response that asks for it, its `Location` and the request
of the next hop. -/
inductive Hop where
  | done (r : Option Response × Option Error)
  | redirect (resp : Response) (loc : String) (next : Request)
deriving DecidableEq, Repr

/-- One hop of `client.Do`, `ireq` being the first request of the call and `req`
the request of this hop. The request is handed to the transport. An error of
the transport ends the call with no response and that error in a `*url.Error`.
A response that is not a redirect, or is one without a `Location`, ends the
call with that response and no error. Otherwise the next request is built; an
error in building it ends the call with no response and that error in a
`*url.Error`. -/
def hop (env : Env) (ireq req : Request) (w : World) : Hop :=
  match env.roundTrip w req with
  | .error err => .done (none, some (.url (urlErrorOp ireq.Method) req.URL err))
  | .ok resp =>
    if shouldRedirect resp.StatusCode then
      if resp.Header.Get "Location" = "" then .done (some resp, none)
      else
        match env.nextHop ireq req resp with
        | .error err => .done (none, some (.url (urlErrorOp ireq.Method) req.URL err))
        | .ok next => .redirect resp (resp.Header.Get "Location") next
    else .done (some resp, none)

/-- The loop of `client.Do` from the request `req` on, `left` being the number
of redirects that may still be followed. Each hop hands its request to the
transport. A redirect is followed while the default policy allows it, which is
until 10 requests have been made; after that the call ends with the last
response and the error `stopped after 10 redirects` in a `*url.Error`. -/
def doHops (env : Env) (ireq : Request) : Nat → Request → World →
    (Option Response × Option Error) × World
  | 0, req, w =>
    match hop env ireq req w with
    | .done r => (r, { w with roundTrips := w.roundTrips ++ [req] })
    | .redirect resp loc _ =>
      ((some resp,
          some (.url (urlErrorOp ireq.Method) loc (.mk "stopped after 10 redirects"))),
        { w with roundTrips := w.roundTrips ++ [req] })
  | left + 1, req, w =>
    match hop env ireq req w with
    | .done r => (r, { w with roundTrips := w.roundTrips ++ [req] })
    | .redirect _ _ next =>
      doHops env ireq left next { w with roundTrips := w.roundTrips ++ [req] }

/-- The call `client.Do(request)` on a fresh `&http.Client{}`, as in Go 1.8
and later: the request is handed to the default transport; redirects are
followed under the default policy, so that up to 10 requests are made; the
result is the response the call ends on or the error it ends on, the error
being a `*url.Error`. -/
def Do (env : Env) (request : Request) (w : World) :
    (Option Response × Option Error) × World :=
  doHops env request 9 request (w.withRequest request)

end http

namespace exec

/-- The call `cmd.Start()`: fails when the command was already started;
otherwise the spawner is asked once, and the process is recorded in the command
when it succeeds. -/
def Cmd.Start (env : Env) (cmd : Cmd) (w : World) : Option Error × Cmd × World :=
  match cmd.Process with
  | some _ => (some (.mk "exec: already started"), cmd, w)
  | none =>
    let w1 : World := { w with spawns := w.spawns ++ [(cmd.Path, cmd.Args)] }
    match env.startProcess w cmd.Path cmd.Args with
    | .error e => (some e, cmd, w1)
    | .ok p => (none, { cmd with Process := some p }, w1)

end exec

/-! ## The client handle (clients.go, lines 11-124) -/

/-- Represents a client that interfaces with the protocol being tested. -/
structure Client where
  PortNumber : Int
  Identifier : String
  executable : String
  command : Option exec.Cmd
deriving DecidableEq, Repr

/-- Create a new Client, wrapping an executing client process. (So the
docstring of the source; the code starts no process here, the command is nil
until `Start`.) -/
def NewClient (command id : String) (port : Int) : Client :=
  ⟨port, id, command, none⟩

/-- Start the client server by executing the command provided in the NewClient
function with the arguments provided. Returns the error of `cmd.Start()`, the
handle after the call and the world after the call. -/
def Client.Start (env : Env) (c : Client) (args : List String) (w : World) :
    Option Error × Client × World :=
  let cmd := exec.Command c.executable args
  let c1 : Client := { c with command := some cmd }
  match exec.Cmd.Start env cmd w with
  | (err, cmd1, w1) => (err, { c1 with command := some cmd1 }, w1)

/-- Send POST /joined to the client to let them know they have joined the test
simulation and to send a list of the names of clients already in the
simulation. -/
def Client.NotifyJoined (env : Env) (c : Client) (participants : Option (List String))
    (w : World) : (Option http.Response × Option Error) × Client × World :=
  match json.Marshal env (.joined ⟨c.Identifier, participants⟩) with
  | .error err1 => ((none, some err1), c, w)
  | .ok data =>
    let reader := some data
    match http.NewRequest env "POST" (joinedUrl c.PortNumber) reader with
    | .error err2 => ((none, some err2), c, w)
    | .ok request =>
      let request := { request with Header := request.Header.Set "Content-Type" "application/json" }
      match http.Do env request w with
      | ((response, err3), w1) => ((response, err3), c, w1)

/-- Send POST /disconnect to the client to request that it clean up and exit. -/
def Client.Disconnect (env : Env) (c : Client) (w : World) :
    (Option http.Response × Option Error) × Client × World :=
  match http.NewRequest env "POST" (disconnectUrl c.PortNumber) none with
  | .error err1 => ((none, some err1), c, w)
  | .ok request =>
    match http.Do env request w with
    | ((response, err2), w1) => ((response, err2), c, w1)

/-- Send POST /prompt to the client to prompt it to send a message to another
client. -/
def Client.PromptSend (env : Env) (c : Client) (to_ message : String) (w : World) :
    (Option http.Response × Option Error) × Client × World :=
  match json.Marshal env (.prompt ⟨c.Identifier, to_, message⟩) with
  | .error err1 => ((none, some err1), c, w)
  | .ok data =>
    let reader := some data
    match http.NewRequest env "POST" (promptUrl c.PortNumber) reader with
    | .error err2 => ((none, some err2), c, w)
    | .ok request =>
      let request := { request with Header := request.Header.Set "Content-Type" "application/json" }
      match http.Do env request w with
      | ((response, err3), w1) => ((response, err3), c, w1)

/-- Send POST /received to inform the client that it has received a message. -/
def Client.NotifyReceived (env : Env) (c : Client) (from_ message when : String) (w : World) :
    (Option http.Response × Option Error) × Client × World :=
  match json.Marshal env (.received ⟨from_, message, when⟩) with
  | .error err1 => ((none, some err1), c, w)
  | .ok data =>
    let reader := some data
    match http.NewRequest env "POST" (receivedUrl c.PortNumber) reader with
    | .error err2 => ((none, some err2), c, w)
    | .ok request =>
      let request := { request with Header := request.Header.Set "Content-Type" "application/json" }
      match http.Do env request w with
      | ((response, err3), w1) => ((response, err3), c, w1)

/-! ## Reading the encoding back

A reader for the JSON that `encode` writes. It is not part of the package: it is
the means by which the theorems show that a body determines the message it was
encoded from. -/

namespace json

/-- The value of a hexadecimal digit as `encoding/json` writes it (`0`-`9`,
`a`-`f`). -/
def hexVal (c : Char) : Nat := if c.toNat < 58 then c.toNat - 48 else c.toNat - 87

/-- The character a one-letter escape stands for: `n`, `r`, `t` for newline,
carriage return and tab, any other character (the quote, the backslash) for
itself. -/
def unescape (c : Char) : Char :=
  if c = 'n' then '\n' else if c = 'r' then '\r' else if c = 't' then '\t' else c

/-- Puts a character in front of the characters read. -/
def consChar (c : Char) : Option (List Char × List Char) → Option (List Char × List Char)
  | none => none
  | some p => some (c :: p.1, p.2)

/-- Reads the inside of a string literal up to its closing quote: the
characters it stands for, and the input after the closing quote. -/
def readChars : List Char → Option (List Char × List Char)
  | [] => none
  | c :: rest =>
    if c = '"' then some ([], rest)
    else if c = '\\' then
      match rest with
      | [] => none
      | e :: rest1 =>
        if e = 'u' then
          match rest1 with
          | a :: b :: x :: y :: rest2 =>
            consChar (Char.ofNat (((hexVal a * 16 + hexVal b) * 16 + hexVal x) * 16 + hexVal y))
              (readChars rest2)
          | _ => none
        else consChar (unescape e) (readChars rest1)
    else consChar c (readChars rest)

/-- Takes the expected characters off the front of the input. -/
def expect : List Char → List Char → Option (List Char)
  | [], l => some l
  | _ :: _, [] => none
  | a :: as, b :: bs => if a = b then expect as bs else none

/-- Reads a string literal: the string it stands for and the input after it. -/
def readString (l : List Char) : Option (String × List Char) :=
  match expect ['"'] l with
  | none => none
  | some rest =>
    match readChars rest with
    | none => none
    | some p => some (String.mk p.1, p.2)

/-- Reads the elements of a non-empty array up to the closing bracket; `fuel`
bounds the number of elements. -/
def readElems : Nat → List Char → Option (List String × List Char)
  | 0, _ => none
  | fuel + 1, l =>
    match readString l with
    | none => none
    | some (_, []) => none
    | some (s, c :: rest) =>
      if c = ']' then some ([s], rest)
      else if c = ',' then
        match readElems fuel rest with
        | none => none
        | some p => some (s :: p.1, p.2)
      else none

/-- Reads `null` or an array of string literals. -/
def readStrings (fuel : Nat) (l : List Char) : Option (Option (List String) × List Char) :=
  match expect ['n', 'u', 'l', 'l'] l with
  | some rest => some (none, rest)
  | none =>
    match expect ['['] l with
    | none => none
    | some rest =>
      match expect [']'] rest with
      | some rest1 => some (some [], rest1)
      | none =>
        match readElems fuel rest with
        | none => none
        | some p => some (some p.1, p.2)

/-- Reads a `JoinedMessage` after the name of its first field. -/
def readJoined (fuel : Nat) (l : List Char) : Option Value :=
  match readString l with
  | none => none
  | some (id, r1) =>
    match expect ",\"participants\":".data r1 with
    | none => none
    | some r2 =>
      match readStrings fuel r2 with
      | none => none
      | some (ps, r3) => if r3 = ['\x7d'] then some (.joined ⟨id, ps⟩) else none

/-- Reads two string fields under the given names and the closing brace. -/
def readTwo (name1 name2 : List Char) (l : List Char) : Option (String × String) :=
  match expect name1 l with
  | none => none
  | some r1 =>
    match readString r1 with
    | none => none
    | some (a, r2) =>
      match expect name2 r2 with
      | none => none
      | some r3 =>
        match readString r3 with
        | none => none
        | some (b, r4) => if r4 = ['\x7d'] then some (a, b) else none

/-- Reads a `PromptMessage` or a `ReceivedMessage` after the name of its first
field. -/
def readFrom (l : List Char) : Option Value :=
  match readString l with
  | none => none
  | some (f, r1) =>
    match readTwo ",\"to\":".data ",\"message\":".data r1 with
    | some (t, m) => some (.prompt ⟨f, t, m⟩)
    | none =>
      match readTwo ",\"message\":".data ",\"when\":".data r1 with
      | some (m, wh) => some (.received ⟨f, m, wh⟩)
      | none => none

/-- Reads back a message from its encoding; `fuel` bounds the number of
participants. -/
def decode (fuel : Nat) (s : String) : Option Value :=
  match expect "\x7b\"identifier\":".data s.data with
  | some r => readJoined fuel r
  | none =>
    match expect "\x7b\"from\":".data s.data with
    | some r => readFrom r
    | none => none

/-- The number of participants a message lists. -/
def Value.elems : Value → Nat
  | .joined m => match m.Participants with
    | none => 0
    | some l => l.length
  | _ => 0

end json

/-! ## Sequences of calls on one handle -/

/-- One call of a method of the handle, with its arguments. -/
inductive Call where
  | Start (args : List String)
  | NotifyJoined (participants : Option (List String))
  | Disconnect
  | PromptSend (to_ message : String)
  | NotifyReceived (from_ message when : String)
deriving DecidableEq, Repr

/-- Makes the call on the handle in the given world; the result of the call is
dropped, the handle and the world after the call are kept. -/
def Call.run (env : Env) : Call → Client × World → Client × World
  | .Start args, (c, w) => (Client.Start env c args w).2
  | .NotifyJoined participants, (c, w) => (Client.NotifyJoined env c participants w).2
  | .Disconnect, (c, w) => (Client.Disconnect env c w).2
  | .PromptSend to_ message, (c, w) => (Client.PromptSend env c to_ message w).2
  | .NotifyReceived from_ message when, (c, w) =>
      (Client.NotifyReceived env c from_ message when w).2

/-- Makes the calls one after the other, each on the handle and the world the
previous one left. -/
def runCalls (env : Env) : List Call → Client × World → Client × World
  | [], s => s
  | k :: ks, s => runCalls env ks (k.run env s)

/-! ## The control protocol in the words of the spec

The definitions of this section follow the spec, not the code; the theorems
compare them with what the code hands to the transport. -/

/-- In the words of the spec: a POST to `http://localhost:{port}/{path}` with
`Content-Type: application/json` and the given body. -/
def specJsonPost (port : Int) (path body : String) : http.Request :=
  { Method := "POST"
    URL := "http://localhost:" ++ toString port ++ "/" ++ path
    Header := [("Content-Type", "application/json")]
    Body := some body }

/-- In the words of the spec: a POST to `http://localhost:{port}/{path}` with no
body and no header. -/
def specEmptyPost (port : Int) (path : String) : http.Request :=
  { Method := "POST"
    URL := "http://localhost:" ++ toString port ++ "/" ++ path
    Header := []
    Body := none }

/-- In the words of the spec: the request of `notifyJoined`, with body
`JoinedMessage{identifier, participants}`. -/
def specJoinedRequest (c : Client) (participants : Option (List String)) : http.Request :=
  specJsonPost c.PortNumber "joined"
    ("\x7b\"identifier\":" ++ json.encodeString c.Identifier ++
      ",\"participants\":" ++ json.encodeStrings participants ++ "\x7d")

/-- In the words of the spec: the request of `disconnect`, with no body. -/
def specDisconnectRequest (c : Client) : http.Request :=
  specEmptyPost c.PortNumber "disconnect"

/-- In the words of the spec: the request of `promptSend`, with body
`PromptMessage{identifier, to, message}`. -/
def specPromptRequest (c : Client) (to_ message : String) : http.Request :=
  specJsonPost c.PortNumber "prompt"
    ("\x7b\"from\":" ++ json.encodeString c.Identifier ++ ",\"to\":" ++ json.encodeString to_ ++
      ",\"message\":" ++ json.encodeString message ++ "\x7d")

/-- In the words of the spec: the request of `notifyReceived`, with body
`ReceivedMessage{from, message, when}`. -/
def specReceivedRequest (c : Client) (from_ message when : String) : http.Request :=
  specJsonPost c.PortNumber "received"
    ("\x7b\"from\":" ++ json.encodeString from_ ++ ",\"message\":" ++ json.encodeString message ++
      ",\"when\":" ++ json.encodeString when ++ "\x7d")

/-- The shape the four control operations share, given the failure of the
encoding (if any), the failure of the request construction (if any) and the
request that is built otherwise. On a failure: that error, no response, and the
world as it was. Otherwise: the request is passed to `client.Do`, once, and
what `client.Do` returns is returned as it is. The handle is the same in all
cases. -/
def controlCall (env : Env) (encErr buildErr : Option Error) (req : http.Request)
    (c : Client) (w : World) : (Option http.Response × Option Error) × Client × World :=
  match encErr, buildErr with
  | some e, _ => ((none, some e), c, w)
  | none, some e => ((none, some e), c, w)
  | none, none => ((http.Do env req w).1, c, (http.Do env req w).2)

/-! ## Sample environments and handles -/

/-- The world in which nothing has been asked yet. -/
def World.empty : World := ⟨[], [], []⟩

/-- A next hop as `client.Do` builds it for a `Location` that is an absolute
path on `http://localhost:8080`: after 307 and 308 the method and the body of
the first request are kept, after 301, 302 and 303 a method other than GET and
HEAD becomes GET and the body is dropped; the header is the one of the first
request with the URL of the request just answered as `Referer`. -/
def sampleNextHop (ireq req : http.Request) (resp : http.Response) :
    Except Error http.Request :=
  let keep : Bool := resp.StatusCode = 307 || resp.StatusCode = 308
  .ok { Method := if keep || req.Method = "GET" || req.Method = "HEAD" then req.Method
                  else "GET"
        URL := "http://localhost:8080" ++ resp.Header.Get "Location"
        Header := ireq.Header.Set "Referer" req.URL
        Body := if keep then ireq.Body else none }

/-- An environment in which every library call succeeds, a listener answers
every request with the given status and no header, and every spawn succeeds
with process 4242. -/
def envAnswering (status : Int) : Env where
  marshalErr := fun _ => none
  newRequestErr := fun _ _ => none
  roundTrip := fun _ _ => .ok ⟨status, [], ""⟩
  nextHop := sampleNextHop
  startProcess := fun _ _ _ => .ok ⟨4242⟩

/-- An environment in which no port has a listener and no executable exists. -/
def envNothingThere : Env where
  marshalErr := fun _ => none
  newRequestErr := fun _ _ => none
  roundTrip := fun _ _ => .error (.mk "connection refused")
  nextHop := sampleNextHop
  startProcess := fun _ _ _ => .error (.mk "no such file or directory")

/-- An environment in which `json.Marshal` fails on every value. -/
def envNoEncoding : Env where
  marshalErr := fun _ => some (.mk "json: unsupported value")
  newRequestErr := fun _ _ => none
  roundTrip := fun _ _ => .ok ⟨200, [], ""⟩
  nextHop := sampleNextHop
  startProcess := fun _ _ _ => .ok ⟨4242⟩

/-- An environment in which `http.NewRequest` fails on every URL. -/
def envNoRequest : Env where
  marshalErr := fun _ => none
  newRequestErr := fun _ _ => some (.mk "invalid port")
  roundTrip := fun _ _ => .ok ⟨200, [], ""⟩
  nextHop := sampleNextHop
  startProcess := fun _ _ _ => .ok ⟨4242⟩

/-- An environment in which the listener on port 8080 answers a request to
`/disconnect` with `307 Temporary Redirect` and `Location: /bye`, and every
other request with 200. -/
def envRedirecting : Env where
  marshalErr := fun _ => none
  newRequestErr := fun _ _ => none
  roundTrip := fun _ req =>
    if req.URL = "http://localhost:8080/disconnect" then .ok ⟨307, [("Location", "/bye")], ""⟩
    else .ok ⟨200, [], ""⟩
  nextHop := sampleNextHop
  startProcess := fun _ _ _ => .ok ⟨4242⟩

/-- An environment in which the listener answers every request with `302 Found`
and `Location: /disconnect`. -/
def envLooping : Env where
  marshalErr := fun _ => none
  newRequestErr := fun _ _ => none
  roundTrip := fun _ _ => .ok ⟨302, [("Location", "/disconnect")], ""⟩
  nextHop := sampleNextHop
  startProcess := fun _ _ _ => .ok ⟨4242⟩

/-- The handle of the examples: identifier `alice`, port 8080. -/
def alice : Client := NewClient "./echoclient" "alice" 8080

/-- The character can occur in the output of `strconv.Itoa`: a decimal digit
or the minus sign. -/
def isItoaChar (c : Char) : Bool := c.isDigit || c == '-'


/-! ## Lemmas on decimal representations -/

theorem digitChar_isDigit (d : Nat) (h : d < 10) : (Nat.digitChar d).isDigit = true := by
  interval_cases d <;> decide

theorem toDigitsCore_isDigit (fuel : Nat) :
    ∀ (n : Nat) (ds : List Char), (∀ c ∈ ds, c.isDigit = true) →
      ∀ c ∈ Nat.toDigitsCore 10 fuel n ds, c.isDigit = true := by
  induction fuel with
  | zero => intro n ds h c hc; simpa [Nat.toDigitsCore] using h c (by simpa [Nat.toDigitsCore] using hc)
  | succ f ih =>
    intro n ds h c hc
    have hd : (Nat.digitChar (n % 10)).isDigit = true :=
      digitChar_isDigit _ (Nat.mod_lt _ (by decide))
    have hds : ∀ c ∈ Nat.digitChar (n % 10) :: ds, c.isDigit = true := by
      intro x hx
      rcases List.mem_cons.mp hx with rfl | hx
      · exact hd
      · exact h x hx
    simp only [Nat.toDigitsCore] at hc
    split at hc
    · exact hds c hc
    · exact ih _ _ hds c hc

theorem repr_isDigit (n : Nat) : ∀ c ∈ (Nat.repr n).data, c.isDigit = true := by
  intro c hc
  have : c ∈ Nat.toDigitsCore 10 (n + 1) n [] := by
    simpa [Nat.repr, Nat.toDigits, List.asString] using hc
  exact toDigitsCore_isDigit _ _ _ (by simp) c this

theorem toDigitsCore_ne_nil (fuel n : Nat) (ds : List Char) :
    Nat.toDigitsCore 10 (fuel + 1) n ds ≠ [] := by
  induction fuel generalizing n ds with
  | zero => simp [Nat.toDigitsCore]
  | succ f ih =>
    rw [Nat.toDigitsCore]
    split
    · simp
    · exact ih _ _

theorem repr_ne_nil (n : Nat) : (Nat.repr n).data ≠ [] := by
  have := toDigitsCore_ne_nil n n []
  simpa [Nat.repr, Nat.toDigits, List.asString] using this

theorem Itoa_chars (i : Int) : ∀ c ∈ (strconv.Itoa i).data, isItoaChar c = true := by
  intro c hc
  unfold strconv.Itoa at hc
  split at hc
  · simp only [String.data_append, List.mem_append] at hc
    rcases hc with hc | hc
    · have : c = '-' := by simpa using hc
      subst this; decide
    · simp [isItoaChar, repr_isDigit _ c hc]
  · simp [isItoaChar, repr_isDigit _ c hc]

theorem Itoa_ne_nil (i : Int) : (strconv.Itoa i).data ≠ [] := by
  unfold strconv.Itoa
  split
  · simp
  · exact repr_ne_nil _

theorem Itoa_eq_toString (i : Int) : strconv.Itoa i = toString i := by
  unfold strconv.Itoa
  cases i with
  | ofNat n =>
    have h : ¬ (Int.ofNat n < 0) := by simp
    rw [if_neg h]
    rfl
  | negSucc n =>
    have h : Int.negSucc n < 0 := Int.negSucc_lt_zero n
    rw [if_pos h]
    rfl

/-! ## What each control operation does, case by case -/

theorem url_eq (port : Int) (path : String) :
    "http://localhost:" ++ strconv.Itoa port ++ ("/" ++ path) =
      "http://localhost:" ++ toString port ++ "/" ++ path := by
  rw [Itoa_eq_toString, String.append_assoc, String.append_assoc, String.append_assoc]

theorem joinedUrl_eq (port : Int) :
    joinedUrl port = "http://localhost:" ++ toString port ++ "/" ++ "joined" :=
  url_eq port "joined"

theorem disconnectUrl_eq (port : Int) :
    disconnectUrl port = "http://localhost:" ++ toString port ++ "/" ++ "disconnect" :=
  url_eq port "disconnect"

theorem promptUrl_eq (port : Int) :
    promptUrl port = "http://localhost:" ++ toString port ++ "/" ++ "prompt" :=
  url_eq port "prompt"

theorem receivedUrl_eq (port : Int) :
    receivedUrl port = "http://localhost:" ++ toString port ++ "/" ++ "received" :=
  url_eq port "received"

theorem NotifyJoined_sends (env : Env) (c : Client) (ps : Option (List String)) (w : World)
    (hm : env.marshalErr (.joined ⟨c.Identifier, ps⟩) = none)
    (hr : env.newRequestErr "POST" (joinedUrl c.PortNumber) = none) :
    Client.NotifyJoined env c ps w =
      ((http.Do env (specJoinedRequest c ps) w).1, c, (http.Do env (specJoinedRequest c ps) w).2) := by
  simp [Client.NotifyJoined, json.Marshal, http.NewRequest, http.Do, hm, hr,
    specJoinedRequest, specJsonPost, http.Header.Set, json.encode, ← joinedUrl_eq]

theorem NotifyJoined_encoding_fails (env : Env) (c : Client) (ps : Option (List String))
    (w : World) (e : Error) (hm : env.marshalErr (.joined ⟨c.Identifier, ps⟩) = some e) :
    Client.NotifyJoined env c ps w = ((none, some e), c, w) := by
  simp [Client.NotifyJoined, json.Marshal, hm]

theorem NotifyJoined_construction_fails (env : Env) (c : Client) (ps : Option (List String))
    (w : World) (e : Error) (hm : env.marshalErr (.joined ⟨c.Identifier, ps⟩) = none)
    (hr : env.newRequestErr "POST" (joinedUrl c.PortNumber) = some e) :
    Client.NotifyJoined env c ps w = ((none, some e), c, w) := by
  simp [Client.NotifyJoined, json.Marshal, http.NewRequest, hm, hr]

theorem Disconnect_sends (env : Env) (c : Client) (w : World)
    (hr : env.newRequestErr "POST" (disconnectUrl c.PortNumber) = none) :
    Client.Disconnect env c w =
      ((http.Do env (specDisconnectRequest c) w).1, c, (http.Do env (specDisconnectRequest c) w).2) := by
  simp [Client.Disconnect, http.NewRequest, http.Do, hr,
    specDisconnectRequest, specEmptyPost, ← disconnectUrl_eq]

theorem Disconnect_construction_fails (env : Env) (c : Client) (w : World) (e : Error)
    (hr : env.newRequestErr "POST" (disconnectUrl c.PortNumber) = some e) :
    Client.Disconnect env c w = ((none, some e), c, w) := by
  simp [Client.Disconnect, http.NewRequest, hr]

theorem PromptSend_sends (env : Env) (c : Client) (to_ message : String) (w : World)
    (hm : env.marshalErr (.prompt ⟨c.Identifier, to_, message⟩) = none)
    (hr : env.newRequestErr "POST" (promptUrl c.PortNumber) = none) :
    Client.PromptSend env c to_ message w =
      ((http.Do env (specPromptRequest c to_ message) w).1, c, (http.Do env (specPromptRequest c to_ message) w).2) := by
  simp [Client.PromptSend, json.Marshal, http.NewRequest, http.Do, hm, hr,
    specPromptRequest, specJsonPost, http.Header.Set, json.encode, ← promptUrl_eq]

theorem PromptSend_encoding_fails (env : Env) (c : Client) (to_ message : String)
    (w : World) (e : Error)
    (hm : env.marshalErr (.prompt ⟨c.Identifier, to_, message⟩) = some e) :
    Client.PromptSend env c to_ message w = ((none, some e), c, w) := by
  simp [Client.PromptSend, json.Marshal, hm]

theorem PromptSend_construction_fails (env : Env) (c : Client) (to_ message : String)
    (w : World) (e : Error)
    (hm : env.marshalErr (.prompt ⟨c.Identifier, to_, message⟩) = none)
    (hr : env.newRequestErr "POST" (promptUrl c.PortNumber) = some e) :
    Client.PromptSend env c to_ message w = ((none, some e), c, w) := by
  simp [Client.PromptSend, json.Marshal, http.NewRequest, hm, hr]

theorem NotifyReceived_sends (env : Env) (c : Client) (from_ message when : String) (w : World)
    (hm : env.marshalErr (.received ⟨from_, message, when⟩) = none)
    (hr : env.newRequestErr "POST" (receivedUrl c.PortNumber) = none) :
    Client.NotifyReceived env c from_ message when w =
      ((http.Do env (specReceivedRequest c from_ message when) w).1, c, (http.Do env (specReceivedRequest c from_ message when) w).2) := by
  simp [Client.NotifyReceived, json.Marshal, http.NewRequest, http.Do, hm, hr,
    specReceivedRequest, specJsonPost, http.Header.Set, json.encode, ← receivedUrl_eq]

theorem NotifyReceived_encoding_fails (env : Env) (c : Client) (from_ message when : String)
    (w : World) (e : Error)
    (hm : env.marshalErr (.received ⟨from_, message, when⟩) = some e) :
    Client.NotifyReceived env c from_ message when w = ((none, some e), c, w) := by
  simp [Client.NotifyReceived, json.Marshal, hm]

theorem NotifyReceived_construction_fails (env : Env) (c : Client)
    (from_ message when : String) (w : World) (e : Error)
    (hm : env.marshalErr (.received ⟨from_, message, when⟩) = none)
    (hr : env.newRequestErr "POST" (receivedUrl c.PortNumber) = some e) :
    Client.NotifyReceived env c from_ message when w = ((none, some e), c, w) := by
  simp [Client.NotifyReceived, json.Marshal, http.NewRequest, hm, hr]

/-! ## The encoding can be read back -/

namespace json

theorem hexVal_digitChar (k : Nat) (h : k < 16) : hexVal (Nat.digitChar k) = k := by
  interval_cases k <;> decide

theorem readChars_escapeChar (c : Char) (l : List Char) :
    readChars (escapeChar c ++ l) = consChar c (readChars l) := by
  unfold escapeChar
  split
  · next h => subst h; rw [readChars.eq_def]; simp [unescape]
  split
  · next h => subst h; rw [readChars.eq_def]; simp [unescape]
  split
  · next h => subst h; rw [readChars.eq_def]; simp [unescape]
  split
  · next h => subst h; rw [readChars.eq_def]; simp [unescape]
  split
  · next h => subst h; rw [readChars.eq_def]; simp [unescape]
  split
  · next h1 h2 h3 h4 h5 h =>
    have hlt : c.toNat < 64 := by
      rcases h with h | h | h | h
      · omega
      · subst h; decide
      · subst h; decide
      · subst h; decide
    have e1 : hexVal (Nat.digitChar (c.toNat / 16)) = c.toNat / 16 :=
      hexVal_digitChar _ (by omega)
    have e2 : hexVal (Nat.digitChar (c.toNat % 16)) = c.toNat % 16 :=
      hexVal_digitChar _ (by omega)
    have e0 : hexVal '0' = 0 := by decide
    rw [readChars.eq_def]
    simp [e0, e1, e2]
    rw [show c.toNat / 16 * 16 + c.toNat % 16 = c.toNat by omega, Char.ofNat_toNat]
  split
  · next h1 h2 h3 h4 h5 h6 h =>
    have e2 : hexVal (Nat.digitChar (c.toNat % 16)) = c.toNat % 16 :=
      hexVal_digitChar _ (by omega)
    have e0 : hexVal '0' = 0 := by decide
    have e3 : hexVal '2' = 2 := by decide
    rw [readChars.eq_def]
    simp [e0, e2, e3]
    rw [show (2 * 16 * 16 + 2) * 16 + c.toNat % 16 = c.toNat by omega, Char.ofNat_toNat]
  · next h1 h2 h3 h4 h5 h6 h7 =>
    rw [readChars.eq_def]; simp [h1, h2]

theorem readChars_escaped (s rest : List Char) :
    readChars ((s.map escapeChar).flatten ++ '"' :: rest) = some (s, rest) := by
  induction s with
  | nil => rw [readChars.eq_def]; simp
  | cons c s ih =>
    simp only [List.map_cons, List.flatten_cons, List.append_assoc]
    rw [readChars_escapeChar, ih]
    rfl

theorem expect_append (lit rest : List Char) : expect lit (lit ++ rest) = some rest := by
  induction lit with
  | nil => cases rest <;> rfl
  | cons a as ih => simp [expect, ih]

theorem encodeString_data (s : String) :
    (encodeString s).data = '"' :: ((s.data.map escapeChar).flatten ++ ['"']) := by
  simp [encodeString]

theorem readString_encodeString (s : String) (rest : List Char) :
    readString ((encodeString s).data ++ rest) = some (s, rest) := by
  rw [encodeString_data]
  simp [readString, expect, readChars_escaped]

end json

namespace json

theorem intercalate_go_append (x acc sep : String) (l : List String) :
    String.intercalate.go (x ++ acc) sep l = x ++ String.intercalate.go acc sep l := by
  induction l generalizing acc with
  | nil => rfl
  | cons a l ih =>
    simp only [String.intercalate.go]
    rw [String.append_assoc, String.append_assoc, ← String.append_assoc acc, ih]

theorem intercalate_cons_cons (sep a b : String) (l : List String) :
    sep.intercalate (a :: b :: l) = a ++ (sep ++ sep.intercalate (b :: l)) := by
  simp only [String.intercalate, String.intercalate.go]
  rw [String.append_assoc, intercalate_go_append, intercalate_go_append]

theorem readElems_encoded (a : String) (l : List String) (rest : List Char) (fuel : Nat)
    (h : l.length < fuel) :
    readElems fuel ((",".intercalate ((a :: l).map encodeString)).data ++ ']' :: rest) =
      some (a :: l, rest) := by
  induction l generalizing a fuel with
  | nil =>
    obtain ⟨f, rfl⟩ : ∃ f, fuel = f + 1 := ⟨fuel - 1, by omega⟩
    simp [readElems, String.intercalate, String.intercalate.go, readString_encodeString]
  | cons b l ih =>
    obtain ⟨f, rfl⟩ : ∃ f, fuel = f + 1 := ⟨fuel - 1, by omega⟩
    have hl : l.length < f := by simpa using h
    have ih1 := ih b f hl
    simp only [List.map_cons] at ih1 ⊢
    rw [intercalate_cons_cons]
    simp only [String.data_append, List.append_assoc]
    rw [readElems, readString_encodeString]
    simp [ih1]

theorem readStrings_array (fuel : Nat) (t rest : List Char) (r : List String × List Char)
    (h : readElems fuel ('"' :: (t ++ ']' :: rest)) = some r) :
    readStrings fuel ('[' :: '"' :: (t ++ ']' :: rest)) = some (some r.1, r.2) := by
  simp [readStrings, expect, h]

theorem readStrings_encodeStrings (ps : Option (List String)) (rest : List Char) (fuel : Nat)
    (h : (Value.joined ⟨"", ps⟩).elems < fuel) :
    readStrings fuel ((encodeStrings ps).data ++ rest) = some (ps, rest) := by
  cases ps with
  | none => simp [readStrings, encodeStrings, expect]
  | some l =>
    cases l with
    | nil => simp [readStrings, encodeStrings, expect, String.intercalate]
    | cons a l =>
      have hl : l.length < fuel := by
        simp [Value.elems] at h; omega
      have := readElems_encoded a l rest fuel hl
      have e3 : ∃ t, (",".intercalate ((a :: l).map encodeString)).data = '"' :: t := by
        cases l with
        | nil =>
          refine ⟨(a.data.map escapeChar).flatten ++ ['"'], ?_⟩
          simp [String.intercalate, String.intercalate.go, encodeString_data]
        | cons b l =>
          refine ⟨(a.data.map escapeChar).flatten ++ ['"'] ++
            ("," ++ ",".intercalate ((b :: l).map encodeString)).data, ?_⟩
          simp only [List.map_cons]
          rw [intercalate_cons_cons]
          simp [encodeString_data]
      obtain ⟨t, ht⟩ := e3
      rw [ht, List.cons_append] at this
      have hd : (encodeStrings (some (a :: l))).data ++ rest =
          '[' :: '"' :: (t ++ ']' :: rest) := by
        simp only [encodeStrings, String.data_append, ht]
        simp
      rw [hd, readStrings_array fuel t rest _ this]

end json

namespace json

theorem readTwo_encoded (name1 name2 : List Char) (a b : String) :
    readTwo name1 name2
      (name1 ++ ((encodeString a).data ++ (name2 ++ ((encodeString b).data ++ ['\x7d']))))
      = some (a, b) := by
  simp only [readTwo, expect_append, readString_encodeString, if_true]

theorem readTwo_other_name (l : List Char) :
    readTwo [',', '"', 't', 'o', '"', ':'] [',', '"', 'm', 'e', 's', 's', 'a', 'g', 'e', '"', ':']
      ([',', '"', 'm', 'e', 's', 's', 'a', 'g', 'e', '"', ':'] ++ l) = none := by
  simp [readTwo, expect]

theorem decode_encode (v : Value) (fuel : Nat) (h : v.elems < fuel) :
    decode fuel (encode v) = some v := by
  cases v with
  | joined m =>
    obtain ⟨id, ps⟩ := m
    have hps : (Value.joined ⟨"", ps⟩).elems < fuel := h
    simp only [decode, encode, String.data_append, List.append_assoc, expect_append, readJoined,
      readString_encodeString, readStrings_encodeStrings ps _ fuel hps, if_true]
  | prompt m =>
    obtain ⟨f, t, msg⟩ := m
    have h0 : ∀ l, expect "\x7b\"identifier\":".data ("\x7b\"from\":".data ++ l) = none := by
      intro l; simp [expect]
    simp only [decode, encode, String.data_append, List.append_assoc, h0,
      expect_append, readFrom, readString_encodeString, readTwo_encoded]
  | received m =>
    obtain ⟨f, msg, wh⟩ := m
    have h0 : ∀ l, expect "\x7b\"identifier\":".data ("\x7b\"from\":".data ++ l) = none := by
      intro l; simp [expect]
    simp only [decode, encode, String.data_append, List.append_assoc, h0,
      expect_append, readFrom, readString_encodeString, readTwo_other_name, readTwo_encoded]

/-- The encoding determines the message: two values with the same encoding are
the same value. -/
theorem encode_injective (v1 v2 : Value) (h : encode v1 = encode v2) : v1 = v2 := by
  have h1 := decode_encode v1 (v1.elems + v2.elems + 1) (by omega)
  have h2 := decode_encode v2 (v1.elems + v2.elems + 1) (by omega)
  rw [h, h2] at h1
  exact (Option.some.inj h1).symm

end json

/-! ## The URL builders -/

theorem url_shape (port : Int) (path : String) (hq : '?' ∉ path.data)
    (hl : path.data.getLast? ≠ some '/') (hne : path.data ≠ []) :
    "http://localhost:".data <+: ("http://localhost:" ++ strconv.Itoa port ++ ("/" ++ path)).data ∧
    ("http://localhost:" ++ strconv.Itoa port ++ ("/" ++ path)).data.getLast? ≠ some '/' ∧
    '?' ∉ ("http://localhost:" ++ strconv.Itoa port ++ ("/" ++ path)).data := by
  refine ⟨?_, ?_, ?_⟩
  · simp only [String.data_append, List.append_assoc]
    exact List.prefix_append _ _
  · simp only [String.data_append]
    rw [List.getLast?_append_of_ne_nil _ (by simp),
      List.getLast?_append_of_ne_nil _ hne]
    exact hl
  · simp only [String.data_append, List.mem_append, not_or]
    refine ⟨⟨by decide, ?_⟩, by decide, hq⟩
    intro h
    have := Itoa_chars port _ h
    revert this
    decide

/-- C1: for every port, each of the four URL builders returns
`http://localhost:`, the decimal representation of the port (digits, with a
leading minus sign for a negative port), `/` and the path name; the URL starts
with `http://localhost:`, does not end in a slash and contains no `?`; port 8080
gives `http://localhost:8080/joined` and likewise for the other three paths. -/
theorem url_builders (port : Int) :
    (joinedUrl port = "http://localhost:" ++ toString port ++ "/" ++ "joined" ∧
      disconnectUrl port = "http://localhost:" ++ toString port ++ "/" ++ "disconnect" ∧
      promptUrl port = "http://localhost:" ++ toString port ++ "/" ++ "prompt" ∧
      receivedUrl port = "http://localhost:" ++ toString port ++ "/" ++ "received") ∧
    (strconv.Itoa port = toString port ∧
      ∀ ch ∈ (strconv.Itoa port).data, ch.isDigit = true ∨ ch = '-') ∧
    (∀ u ∈ [joinedUrl port, disconnectUrl port, promptUrl port, receivedUrl port],
      "http://localhost:".data <+: u.data ∧ u.data.getLast? ≠ some '/' ∧ '?' ∉ u.data) ∧
    (joinedUrl 8080 = "http://localhost:8080/joined" ∧
      disconnectUrl 8080 = "http://localhost:8080/disconnect" ∧
      promptUrl 8080 = "http://localhost:8080/prompt" ∧
      receivedUrl 8080 = "http://localhost:8080/received") := by
  refine ⟨⟨joinedUrl_eq port, disconnectUrl_eq port, promptUrl_eq port, receivedUrl_eq port⟩,
    ⟨Itoa_eq_toString port, ?_⟩, ?_, ⟨rfl, rfl, rfl, rfl⟩⟩
  · intro ch hch
    have := Itoa_chars port ch hch
    simpa [isItoaChar] using this
  · intro u hu
    simp only [List.mem_cons, List.mem_singleton, List.not_mem_nil, or_false] at hu
    rcases hu with rfl | rfl | rfl | rfl
    · exact url_shape port "joined" (by decide) (by decide) (by decide)
    · exact url_shape port "disconnect" (by decide) (by decide) (by decide)
    · exact url_shape port "prompt" (by decide) (by decide) (by decide)
    · exact url_shape port "received" (by decide) (by decide) (by decide)

/-! ## The loop of `client.Do` -/

namespace http

theorem doHops_done (env : Env) (ireq req : Request) (w : World) (n : Nat)
    (r : Option Response × Option Error) (h : hop env ireq req w = .done r) :
    doHops env ireq n req w = (r, { w with roundTrips := w.roundTrips ++ [req] }) := by
  cases n <;> simp [doHops, h]

theorem doHops_redirect (env : Env) (ireq req : Request) (w : World) (n : Nat)
    (resp : Response) (loc : String) (next : Request)
    (h : hop env ireq req w = .redirect resp loc next) :
    doHops env ireq (n + 1) req w =
      doHops env ireq n next { w with roundTrips := w.roundTrips ++ [req] } := by
  simp [doHops, h]

theorem doHops_frame (env : Env) (ireq : Request) (n : Nat) :
    ∀ (req : Request) (w : World),
      (doHops env ireq n req w).2.requests = w.requests ∧
      (doHops env ireq n req w).2.spawns = w.spawns := by
  induction n with
  | zero =>
    intro req w
    simp only [doHops]
    cases hop env ireq req w <;> exact ⟨rfl, rfl⟩
  | succ n ih =>
    intro req w
    simp only [doHops]
    cases hop env ireq req w with
    | done r => exact ⟨rfl, rfl⟩
    | redirect resp loc next => exact ih next _

theorem doHops_roundTrips (env : Env) (ireq : Request) (n : Nat) :
    ∀ (req : Request) (w : World), ∃ more,
      (doHops env ireq n req w).2.roundTrips = w.roundTrips ++ req :: more ∧
      more.length ≤ n := by
  induction n with
  | zero =>
    intro req w
    refine ⟨[], ?_, le_refl _⟩
    simp only [doHops]
    cases hop env ireq req w <;> rfl
  | succ n ih =>
    intro req w
    simp only [doHops]
    cases hop env ireq req w with
    | done r => exact ⟨[], rfl, Nat.zero_le _⟩
    | redirect resp loc next =>
      obtain ⟨more, h1, h2⟩ := ih next { w with roundTrips := w.roundTrips ++ [req] }
      refine ⟨next :: more, ?_, by simpa using h2⟩
      rw [h1]
      simp

theorem hop_of_error (env : Env) (ireq req : Request) (w : World) (e : Error)
    (h : env.roundTrip w req = .error e) :
    hop env ireq req w = .done (none, some (.url (urlErrorOp ireq.Method) req.URL e)) := by
  simp [hop, h]

theorem hop_of_final (env : Env) (ireq req : Request) (w : World) (resp : Response)
    (h : env.roundTrip w req = .ok resp)
    (hf : shouldRedirect resp.StatusCode = false ∨ resp.Header.Get "Location" = "") :
    hop env ireq req w = .done (some resp, none) := by
  rcases hf with hf | hf
  · simp [hop, h, hf]
  · simp only [hop, h, hf]
    split <;> rfl

theorem hop_of_redirect (env : Env) (ireq req : Request) (w : World) (resp : Response)
    (next : Request) (h : env.roundTrip w req = .ok resp)
    (hs : shouldRedirect resp.StatusCode = true) (hl : resp.Header.Get "Location" ≠ "")
    (hn : env.nextHop ireq req resp = .ok next) :
    hop env ireq req w = .redirect resp (resp.Header.Get "Location") next := by
  simp [hop, h, hs, hl, hn]

theorem Do_requests (env : Env) (req : Request) (w : World) :
    (Do env req w).2.requests = w.requests ++ [req] :=
  (doHops_frame env req 9 req (w.withRequest req)).1

theorem Do_spawns (env : Env) (req : Request) (w : World) :
    (Do env req w).2.spawns = w.spawns :=
  (doHops_frame env req 9 req (w.withRequest req)).2

theorem Do_roundTrips (env : Env) (req : Request) (w : World) :
    ∃ more, (Do env req w).2.roundTrips = w.roundTrips ++ req :: more ∧ more.length ≤ 9 :=
  doHops_roundTrips env req 9 req (w.withRequest req)

theorem Do_of_done (env : Env) (req : Request) (w : World)
    (r : Option Response × Option Error) (h : hop env req req (w.withRequest req) = .done r) :
    Do env req w =
      (r, { w with requests := w.requests ++ [req], roundTrips := w.roundTrips ++ [req] }) :=
  doHops_done env req req (w.withRequest req) 9 r h

theorem Do_of_redirect (env : Env) (req : Request) (w : World) (resp : Response)
    (loc : String) (next : Request)
    (h : hop env req req (w.withRequest req) = .redirect resp loc next) :
    ∃ more, (Do env req w).2.roundTrips = w.roundTrips ++ req :: next :: more := by
  unfold Do
  rw [doHops_redirect env req req (w.withRequest req) 8 resp loc next h]
  obtain ⟨more, h1, _⟩ := doHops_roundTrips env req 8 next
    { w.withRequest req with roundTrips := (w.withRequest req).roundTrips ++ [req] }
  exact ⟨more, by rw [h1]; simp [World.withRequest]⟩

end http

/-! ## The shape the control operations share -/

theorem NotifyJoined_eq_controlCall (env : Env) (c : Client) (ps : Option (List String)) (w : World) :
    Client.NotifyJoined env c ps w =
      controlCall env (env.marshalErr (.joined ⟨c.Identifier, ps⟩))
        (env.newRequestErr "POST" (joinedUrl c.PortNumber)) (specJoinedRequest c ps) c w := by
  cases hm : env.marshalErr (.joined ⟨c.Identifier, ps⟩) with
  | some e => rw [NotifyJoined_encoding_fails env c ps w e hm]; rfl
  | none =>
    cases hr : env.newRequestErr "POST" (joinedUrl c.PortNumber) with
    | some e => rw [NotifyJoined_construction_fails env c ps w e hm hr]; rfl
    | none => rw [NotifyJoined_sends env c ps w hm hr]; rfl

theorem Disconnect_eq_controlCall (env : Env) (c : Client) (w : World) :
    Client.Disconnect env c w =
      controlCall env none (env.newRequestErr "POST" (disconnectUrl c.PortNumber))
        (specDisconnectRequest c) c w := by
  cases hr : env.newRequestErr "POST" (disconnectUrl c.PortNumber) with
  | some e => rw [Disconnect_construction_fails env c w e hr]; rfl
  | none => rw [Disconnect_sends env c w hr]; rfl

theorem PromptSend_eq_controlCall (env : Env) (c : Client) (to_ message : String) (w : World) :
    Client.PromptSend env c to_ message w =
      controlCall env (env.marshalErr (.prompt ⟨c.Identifier, to_, message⟩))
        (env.newRequestErr "POST" (promptUrl c.PortNumber))
        (specPromptRequest c to_ message) c w := by
  cases hm : env.marshalErr (.prompt ⟨c.Identifier, to_, message⟩) with
  | some e => rw [PromptSend_encoding_fails env c to_ message w e hm]; rfl
  | none =>
    cases hr : env.newRequestErr "POST" (promptUrl c.PortNumber) with
    | some e => rw [PromptSend_construction_fails env c to_ message w e hm hr]; rfl
    | none => rw [PromptSend_sends env c to_ message w hm hr]; rfl

theorem NotifyReceived_eq_controlCall (env : Env) (c : Client) (from_ message when : String)
    (w : World) :
    Client.NotifyReceived env c from_ message when w =
      controlCall env (env.marshalErr (.received ⟨from_, message, when⟩))
        (env.newRequestErr "POST" (receivedUrl c.PortNumber))
        (specReceivedRequest c from_ message when) c w := by
  cases hm : env.marshalErr (.received ⟨from_, message, when⟩) with
  | some e => rw [NotifyReceived_encoding_fails env c from_ message when w e hm]; rfl
  | none =>
    cases hr : env.newRequestErr "POST" (receivedUrl c.PortNumber) with
    | some e => rw [NotifyReceived_construction_fails env c from_ message when w e hm hr]; rfl
    | none => rw [NotifyReceived_sends env c from_ message when w hm hr]; rfl

theorem controlCall_handle (env : Env) (encErr buildErr : Option Error)
    (req : http.Request) (c : Client) (w : World) :
    (controlCall env encErr buildErr req c w).2.1 = c := by
  cases encErr <;> cases buildErr <;> rfl

theorem controlCall_spawns (env : Env) (encErr buildErr : Option Error)
    (req : http.Request) (c : Client) (w : World) :
    (controlCall env encErr buildErr req c w).2.2.spawns = w.spawns := by
  cases encErr <;> cases buildErr <;> first | rfl | exact http.Do_spawns env req w

theorem controlCall_requests (env : Env) (encErr buildErr : Option Error)
    (req : http.Request) (c : Client) (w : World) :
    (controlCall env encErr buildErr req c w).2.2.requests = w.requests ∨
    (controlCall env encErr buildErr req c w).2.2.requests = w.requests ++ [req] := by
  cases encErr <;> cases buildErr <;> simp [controlCall, http.Do_requests]

/-! ## The body-carrying operations -/

/-- C2: the only request `PromptSend(to, message)` ever passes to `client.Do`,
the one it does pass when encoding and request construction succeed, which is
then the first request handed to the transport, is a POST to `http://localhost:{port}/prompt` with
`Content-Type: application/json` whose body is the encoding of `PromptMessage`
with `from` the identifier of the handle, `to` and `message` as passed; every
message with that encoding is this one, so the `from` field is the identifier
of the handle and nothing else. -/
theorem PromptSend_request (env : Env) (c : Client) (to_ message : String) (w : World) :
    specPromptRequest c to_ message =
      { Method := "POST"
        URL := "http://localhost:" ++ toString c.PortNumber ++ "/prompt"
        Header := [("Content-Type", "application/json")]
        Body := some (json.encode (.prompt ⟨c.Identifier, to_, message⟩)) } ∧
    ((Client.PromptSend env c to_ message w).2.2.requests = w.requests ∨
      (Client.PromptSend env c to_ message w).2.2.requests =
        w.requests ++ [specPromptRequest c to_ message]) ∧
    (env.marshalErr (.prompt ⟨c.Identifier, to_, message⟩) = none →
      env.newRequestErr "POST" (promptUrl c.PortNumber) = none →
      (Client.PromptSend env c to_ message w).2.2.requests =
        w.requests ++ [specPromptRequest c to_ message]) ∧
    json.encode (.prompt ⟨c.Identifier, to_, message⟩) =
      "\x7b\"from\":" ++ json.encodeString c.Identifier ++ ",\"to\":" ++ json.encodeString to_ ++
        ",\"message\":" ++ json.encodeString message ++ "\x7d" ∧
    (∀ v, json.encode v = json.encode (.prompt ⟨c.Identifier, to_, message⟩) →
      v = .prompt ⟨c.Identifier, to_, message⟩) ∧
    (env.marshalErr (.prompt ⟨c.Identifier, to_, message⟩) = none →
      env.newRequestErr "POST" (promptUrl c.PortNumber) = none →
      ∃ more, (Client.PromptSend env c to_ message w).2.2.roundTrips =
        w.roundTrips ++ specPromptRequest c to_ message :: more ∧ more.length ≤ 9) := by
  refine ⟨?_, ?_, fun hm hr => ?_, rfl, fun v hv => json.encode_injective _ _ hv,
    fun hm hr => ?_⟩
  · simp [specPromptRequest, specJsonPost, json.encode, String.append_assoc]
  · rw [PromptSend_eq_controlCall]
    exact controlCall_requests _ _ _ _ _ _
  · rw [PromptSend_sends env c to_ message w hm hr]
    exact http.Do_requests env _ w
  · rw [PromptSend_sends env c to_ message w hm hr]
    exact http.Do_roundTrips env _ w

/-- C2, at the handle `alice` on port 8080: `PromptSend("bob", "hello")` sends
the body of the example. -/
theorem PromptSend_request_witness :
    (envAnswering 200).marshalErr (.prompt ⟨alice.Identifier, "bob", "hello"⟩) = none ∧
    (envAnswering 200).newRequestErr "POST" (promptUrl alice.PortNumber) = none ∧
    (Client.PromptSend (envAnswering 200) alice "bob" "hello" World.empty).2.2.requests =
      [{ Method := "POST"
         URL := "http://localhost:8080/prompt"
         Header := [("Content-Type", "application/json")]
         Body := some "\x7b\"from\":\"alice\",\"to\":\"bob\",\"message\":\"hello\"\x7d" }] :=
  ⟨rfl, rfl,
    (PromptSend_request (envAnswering 200) alice "bob" "hello" World.empty).2.2.1 rfl rfl⟩

/-- C3: the only request `NotifyJoined(participants)` ever passes to
`client.Do`, the one it does pass when encoding and request construction
succeed, which is then the first request handed to the transport, is a POST to `http://localhost:{port}/joined` with
`Content-Type: application/json` whose body is the encoding of `JoinedMessage`
with the identifier of the handle and the participants passed, a list being
written as the array of its elements in order; every message with that encoding
is this one, so the participants are the given ones, none added, removed or
reordered. -/
theorem NotifyJoined_request (env : Env) (c : Client) (participants : Option (List String))
    (w : World) :
    specJoinedRequest c participants =
      { Method := "POST"
        URL := "http://localhost:" ++ toString c.PortNumber ++ "/joined"
        Header := [("Content-Type", "application/json")]
        Body := some (json.encode (.joined ⟨c.Identifier, participants⟩)) } ∧
    ((Client.NotifyJoined env c participants w).2.2.requests = w.requests ∨
      (Client.NotifyJoined env c participants w).2.2.requests =
        w.requests ++ [specJoinedRequest c participants]) ∧
    (env.marshalErr (.joined ⟨c.Identifier, participants⟩) = none →
      env.newRequestErr "POST" (joinedUrl c.PortNumber) = none →
      (Client.NotifyJoined env c participants w).2.2.requests =
        w.requests ++ [specJoinedRequest c participants]) ∧
    json.encode (.joined ⟨c.Identifier, participants⟩) =
      "\x7b\"identifier\":" ++ json.encodeString c.Identifier ++
        ",\"participants\":" ++ json.encodeStrings participants ++ "\x7d" ∧
    (∀ l, json.encodeStrings (some l) =
      "[" ++ ",".intercalate (l.map json.encodeString) ++ "]") ∧
    (∀ v, json.encode v = json.encode (.joined ⟨c.Identifier, participants⟩) →
      v = .joined ⟨c.Identifier, participants⟩) ∧
    (env.marshalErr (.joined ⟨c.Identifier, participants⟩) = none →
      env.newRequestErr "POST" (joinedUrl c.PortNumber) = none →
      ∃ more, (Client.NotifyJoined env c participants w).2.2.roundTrips =
        w.roundTrips ++ specJoinedRequest c participants :: more ∧ more.length ≤ 9) := by
  refine ⟨?_, ?_, fun hm hr => ?_, rfl, fun _ => rfl,
    fun v hv => json.encode_injective _ _ hv, fun hm hr => ?_⟩
  · simp [specJoinedRequest, specJsonPost, json.encode, String.append_assoc]
  · rw [NotifyJoined_eq_controlCall]
    exact controlCall_requests _ _ _ _ _ _
  · rw [NotifyJoined_sends env c participants w hm hr]
    exact http.Do_requests env _ w
  · rw [NotifyJoined_sends env c participants w hm hr]
    exact http.Do_roundTrips env _ w

/-- C3, at the handle `alice` on port 8080: `NotifyJoined(["bob", "carol"])`
sends the body of the example. -/
theorem NotifyJoined_request_witness :
    (envAnswering 200).marshalErr (.joined ⟨alice.Identifier, some ["bob", "carol"]⟩) = none ∧
    (envAnswering 200).newRequestErr "POST" (joinedUrl alice.PortNumber) = none ∧
    (Client.NotifyJoined (envAnswering 200) alice (some ["bob", "carol"])
        World.empty).2.2.requests =
      [{ Method := "POST"
         URL := "http://localhost:8080/joined"
         Header := [("Content-Type", "application/json")]
         Body := some "\x7b\"identifier\":\"alice\",\"participants\":[\"bob\",\"carol\"]\x7d" }] :=
  ⟨rfl, rfl,
    (NotifyJoined_request (envAnswering 200) alice (some ["bob", "carol"])
      World.empty).2.2.1 rfl rfl⟩

/-- C4: the only request `NotifyReceived(from, message, when)` ever passes to
`client.Do`, the one it does pass when encoding and request construction
succeed, which is then the first request handed to the transport, is a POST to `http://localhost:{port}/received` with
`Content-Type: application/json` whose body is the encoding of
`ReceivedMessage` with `from`, `message` and `when` as passed; every message
with that encoding is this one; and the request, the result of the call and the
world after it are the same for a handle that differs in its identifier only. -/
theorem NotifyReceived_request (env : Env) (c : Client) (from_ message when : String)
    (w : World) :
    specReceivedRequest c from_ message when =
      { Method := "POST"
        URL := "http://localhost:" ++ toString c.PortNumber ++ "/received"
        Header := [("Content-Type", "application/json")]
        Body := some (json.encode (.received ⟨from_, message, when⟩)) } ∧
    ((Client.NotifyReceived env c from_ message when w).2.2.requests = w.requests ∨
      (Client.NotifyReceived env c from_ message when w).2.2.requests =
        w.requests ++ [specReceivedRequest c from_ message when]) ∧
    (env.marshalErr (.received ⟨from_, message, when⟩) = none →
      env.newRequestErr "POST" (receivedUrl c.PortNumber) = none →
      (Client.NotifyReceived env c from_ message when w).2.2.requests =
        w.requests ++ [specReceivedRequest c from_ message when]) ∧
    json.encode (.received ⟨from_, message, when⟩) =
      "\x7b\"from\":" ++ json.encodeString from_ ++ ",\"message\":" ++
        json.encodeString message ++ ",\"when\":" ++ json.encodeString when ++ "\x7d" ∧
    (∀ v, json.encode v = json.encode (.received ⟨from_, message, when⟩) →
      v = .received ⟨from_, message, when⟩) ∧
    (∀ id : String,
      specReceivedRequest { c with Identifier := id } from_ message when =
        specReceivedRequest c from_ message when ∧
      (Client.NotifyReceived env { c with Identifier := id } from_ message when w).1 =
        (Client.NotifyReceived env c from_ message when w).1 ∧
      (Client.NotifyReceived env { c with Identifier := id } from_ message when w).2.2 =
        (Client.NotifyReceived env c from_ message when w).2.2) ∧
    (env.marshalErr (.received ⟨from_, message, when⟩) = none →
      env.newRequestErr "POST" (receivedUrl c.PortNumber) = none →
      ∃ more, (Client.NotifyReceived env c from_ message when w).2.2.roundTrips =
        w.roundTrips ++ specReceivedRequest c from_ message when :: more ∧
        more.length ≤ 9) := by
  refine ⟨?_, ?_, fun hm hr => ?_, rfl, fun v hv => json.encode_injective _ _ hv,
    fun id => ⟨rfl, ?_, ?_⟩, fun hm hr => ?_⟩
  · simp [specReceivedRequest, specJsonPost, json.encode, String.append_assoc]
  · rw [NotifyReceived_eq_controlCall]
    exact controlCall_requests _ _ _ _ _ _
  · rw [NotifyReceived_sends env c from_ message when w hm hr]
    exact http.Do_requests env _ w
  · rw [NotifyReceived_eq_controlCall, NotifyReceived_eq_controlCall]
    cases env.marshalErr (.received ⟨from_, message, when⟩) <;>
      cases env.newRequestErr "POST" (receivedUrl c.PortNumber) <;> rfl
  · rw [NotifyReceived_eq_controlCall, NotifyReceived_eq_controlCall]
    cases env.marshalErr (.received ⟨from_, message, when⟩) <;>
      cases env.newRequestErr "POST" (receivedUrl c.PortNumber) <;> rfl
  · rw [NotifyReceived_sends env c from_ message when w hm hr]
    exact http.Do_roundTrips env _ w

/-- C4, at the handle `alice` on port 8080:
`NotifyReceived("alice", "hi", "2024-01-01T00:00:00Z")` sends the body of the
example. -/
theorem NotifyReceived_request_witness :
    (envAnswering 200).marshalErr (.received ⟨"alice", "hi", "2024-01-01T00:00:00Z"⟩) = none ∧
    (envAnswering 200).newRequestErr "POST" (receivedUrl alice.PortNumber) = none ∧
    (Client.NotifyReceived (envAnswering 200) alice "alice" "hi" "2024-01-01T00:00:00Z"
        World.empty).2.2.requests =
      [{ Method := "POST"
         URL := "http://localhost:8080/received"
         Header := [("Content-Type", "application/json")]
         Body := some
          "\x7b\"from\":\"alice\",\"message\":\"hi\",\"when\":\"2024-01-01T00:00:00Z\"\x7d" }] :=
  ⟨rfl, rfl,
    (NotifyReceived_request (envAnswering 200) alice "alice" "hi" "2024-01-01T00:00:00Z"
      World.empty).2.2.1 rfl rfl⟩

/-! ## Disconnect -/

/-- C5: the only request `Disconnect()` ever passes to `client.Do`, the one it
does pass when request construction succeeds, which is then the first request
handed to the transport, is a POST to
`http://localhost:{port}/disconnect` with no body and an empty header, so with
no `Content-Type`; the requests of the three body-carrying operations have a
body and `Content-Type: application/json`. -/
theorem Disconnect_request (env : Env) (c : Client) (w : World) :
    specDisconnectRequest c =
      { Method := "POST"
        URL := "http://localhost:" ++ toString c.PortNumber ++ "/disconnect"
        Header := []
        Body := none } ∧
    ((Client.Disconnect env c w).2.2.requests = w.requests ∨
      (Client.Disconnect env c w).2.2.requests = w.requests ++ [specDisconnectRequest c]) ∧
    (env.newRequestErr "POST" (disconnectUrl c.PortNumber) = none →
      (Client.Disconnect env c w).2.2.requests = w.requests ++ [specDisconnectRequest c]) ∧
    (specDisconnectRequest c).Body = none ∧
    (specDisconnectRequest c).Header.Get "Content-Type" = "" ∧
    (∀ ps, (specJoinedRequest c ps).Body.isSome = true ∧
      (specJoinedRequest c ps).Header.Get "Content-Type" = "application/json") ∧
    (∀ to_ message, (specPromptRequest c to_ message).Body.isSome = true ∧
      (specPromptRequest c to_ message).Header.Get "Content-Type" = "application/json") ∧
    (∀ from_ message when, (specReceivedRequest c from_ message when).Body.isSome = true ∧
      (specReceivedRequest c from_ message when).Header.Get "Content-Type" =
        "application/json") ∧
    (env.newRequestErr "POST" (disconnectUrl c.PortNumber) = none →
      ∃ more, (Client.Disconnect env c w).2.2.roundTrips =
        w.roundTrips ++ specDisconnectRequest c :: more ∧ more.length ≤ 9) := by
  refine ⟨?_, ?_, fun hr => ?_, rfl, rfl, fun _ => ⟨rfl, rfl⟩, fun _ _ => ⟨rfl, rfl⟩,
    fun _ _ _ => ⟨rfl, rfl⟩, fun hr => ?_⟩
  · simp [specDisconnectRequest, specEmptyPost, String.append_assoc]
  · rw [Disconnect_eq_controlCall]
    exact controlCall_requests _ _ _ _ _ _
  · rw [Disconnect_sends env c w hr]
    exact http.Do_requests env _ w
  · rw [Disconnect_sends env c w hr]
    exact http.Do_roundTrips env _ w

/-- C5, at the handle `alice` on port 8080 with nothing listening. -/
theorem Disconnect_request_witness :
    envNothingThere.newRequestErr "POST" (disconnectUrl alice.PortNumber) = none ∧
    (Client.Disconnect envNothingThere alice World.empty).2.2.requests =
      [{ Method := "POST"
         URL := "http://localhost:8080/disconnect"
         Header := []
         Body := none }] :=
  ⟨rfl, (Disconnect_request envNothingThere alice World.empty).2.2.1 rfl⟩

/-! ## Start -/

theorem Start_eq (env : Env) (c : Client) (args : List String) (w : World) :
    Client.Start env c args w =
      match env.startProcess w c.executable (c.executable :: args) with
      | .error e =>
        (some e, { c with command := some (exec.Command c.executable args) },
          { w with spawns := w.spawns ++ [(c.executable, c.executable :: args)] })
      | .ok p =>
        (none, { c with command := some ⟨c.executable, c.executable :: args, some p⟩ },
          { w with spawns := w.spawns ++ [(c.executable, c.executable :: args)] }) := by
  simp only [Client.Start, exec.Cmd.Start, exec.Command]
  cases env.startProcess w c.executable (c.executable :: args) <;> rfl

/-- C7, as stated, fails: with no executable there, `Start` on the fresh handle
`alice` returns the spawn error, but the handle after the call is not the one
before the call, and its command field is not absent. -/
theorem Start_failure_sets_command :
    envNothingThere.startProcess World.empty "./echoclient" ["./echoclient", "8080"] =
      .error (.mk "no such file or directory") ∧
    (Client.Start envNothingThere (NewClient "./echoclient" "alice" 8080) ["8080"]
      World.empty).1 = some (.mk "no such file or directory") ∧
    (Client.Start envNothingThere (NewClient "./echoclient" "alice" 8080) ["8080"]
      World.empty).2.1 ≠ NewClient "./echoclient" "alice" 8080 ∧
    (Client.Start envNothingThere (NewClient "./echoclient" "alice" 8080) ["8080"]
      World.empty).2.1.command ≠ none :=
  ⟨rfl, rfl, by decide, by decide⟩

/-- C7, amended: on a fresh handle, if spawning fails then `Start` returns the
spawn error; port, identifier and launch command are as given to `NewClient`;
the command field holds the command built from the launch command and the
arguments, and that command has no process. -/
theorem Start_failure (env : Env) (command id : String) (port : Int) (args : List String)
    (w : World) (e : Error)
    (h : env.startProcess w command (command :: args) = .error e) :
    (Client.Start env (NewClient command id port) args w).1 = some e ∧
    (Client.Start env (NewClient command id port) args w).2.1 =
      { PortNumber := port, Identifier := id, executable := command,
        command := some { Path := command, Args := command :: args, Process := none } } := by
  rw [Start_eq]
  simp [NewClient, h, exec.Command]

/-- C7, amended, at the fresh handle `alice` with no executable there. -/
theorem Start_failure_witness :
    envNothingThere.startProcess World.empty "./echoclient" ["./echoclient", "8080"] =
      .error (.mk "no such file or directory") ∧
    (Client.Start envNothingThere (NewClient "./echoclient" "alice" 8080) ["8080"]
      World.empty).1 = some (.mk "no such file or directory") ∧
    (Client.Start envNothingThere (NewClient "./echoclient" "alice" 8080) ["8080"]
      World.empty).2.1 =
      { PortNumber := 8080, Identifier := "alice", executable := "./echoclient",
        command := some
          { Path := "./echoclient", Args := ["./echoclient", "8080"], Process := none } } :=
  ⟨rfl, Start_failure envNothingThere "./echoclient" "alice" 8080 ["8080"] World.empty _ rfl⟩

/-- C8: on a handle built by `NewClient(command, id, port)`, `Start(args)` asks
the spawner once, for the executable `command` with the argument vector made of
the program name followed by exactly `args`; it returns the error of the
spawner, or none when the spawner succeeds; and when the spawner succeeds the
handle holds the command with the process the spawner returned. -/
theorem Start_spawns (env : Env) (command id : String) (port : Int) (args : List String)
    (w : World) :
    (Client.Start env (NewClient command id port) args w).2.2.spawns =
      w.spawns ++ [(command, command :: args)] ∧
    (Client.Start env (NewClient command id port) args w).2.2.requests = w.requests ∧
    (Client.Start env (NewClient command id port) args w).1 =
      (match env.startProcess w command (command :: args) with
        | .error e => some e
        | .ok _ => none) ∧
    ∀ p, env.startProcess w command (command :: args) = .ok p →
      (Client.Start env (NewClient command id port) args w).1 = none ∧
      (Client.Start env (NewClient command id port) args w).2.1 =
        { PortNumber := port, Identifier := id, executable := command,
          command := some { Path := command, Args := command :: args, Process := some p } } := by
  rw [Start_eq]
  simp only [NewClient]
  cases h : env.startProcess w command (command :: args) with
  | error e => exact ⟨rfl, rfl, rfl, fun p hp => by cases hp⟩
  | ok p => exact ⟨rfl, rfl, rfl, fun q hq => by cases hq; exact ⟨rfl, rfl⟩⟩

/-- C8, at `NewClient("./echoclient", "alice", 8080)` started with the argument
`8080` where the spawner succeeds with process 4242. -/
theorem Start_spawns_witness :
    (envAnswering 200).startProcess World.empty "./echoclient" ["./echoclient", "8080"] =
      .ok ⟨4242⟩ ∧
    (Client.Start (envAnswering 200) (NewClient "./echoclient" "alice" 8080) ["8080"]
      World.empty).1 = none ∧
    (Client.Start (envAnswering 200) (NewClient "./echoclient" "alice" 8080) ["8080"]
      World.empty).2.1 =
      { PortNumber := 8080, Identifier := "alice", executable := "./echoclient",
        command := some
          { Path := "./echoclient", Args := ["./echoclient", "8080"],
            Process := some ⟨4242⟩ } } :=
  ⟨rfl,
    (Start_spawns (envAnswering 200) "./echoclient" "alice" 8080 ["8080"] World.empty).2.2.2
      _ rfl⟩

theorem Call_run_frame (env : Env) (k : Call) (s : Client × World) :
    (k.run env s).1.PortNumber = s.1.PortNumber ∧
    (k.run env s).1.Identifier = s.1.Identifier ∧
    (k.run env s).1.executable = s.1.executable := by
  obtain ⟨c, w⟩ := s
  cases k with
  | Start args =>
    simp only [Call.run, Start_eq]
    cases env.startProcess w c.executable (c.executable :: args) <;> exact ⟨rfl, rfl, rfl⟩
  | NotifyJoined ps =>
    simp [Call.run, NotifyJoined_eq_controlCall, controlCall_handle]
  | Disconnect =>
    simp [Call.run, Disconnect_eq_controlCall, controlCall_handle]
  | PromptSend to_ message =>
    simp [Call.run, PromptSend_eq_controlCall, controlCall_handle]
  | NotifyReceived from_ message when =>
    simp [Call.run, NotifyReceived_eq_controlCall, controlCall_handle]

theorem runCalls_frame (env : Env) (ks : List Call) (s : Client × World) :
    (runCalls env ks s).1.PortNumber = s.1.PortNumber ∧
    (runCalls env ks s).1.Identifier = s.1.Identifier ∧
    (runCalls env ks s).1.executable = s.1.executable := by
  induction ks generalizing s with
  | nil => exact ⟨rfl, rfl, rfl⟩
  | cons k ks ih =>
    obtain ⟨h1, h2, h3⟩ := ih (k.run env s)
    obtain ⟨g1, g2, g3⟩ := Call_run_frame env k s
    exact ⟨h1.trans g1, h2.trans g2, h3.trans g3⟩

/-- C9: `Start` changes at most the command field of the handle; each of the
four control operations leaves the whole handle as it was, whatever the
outcome; so after any sequence of calls on a handle built by
`NewClient(command, id, port)` the port, the identifier and the launch command
are the ones given to `NewClient`, and the URLs it targets are those of that
port. -/
theorem handle_fields_are_stable (env : Env) (c : Client) (w : World) :
    (∀ args, (Client.Start env c args w).2.1 =
      { c with command := (Client.Start env c args w).2.1.command }) ∧
    (∀ ps, (Client.NotifyJoined env c ps w).2.1 = c) ∧
    (Client.Disconnect env c w).2.1 = c ∧
    (∀ to_ message, (Client.PromptSend env c to_ message w).2.1 = c) ∧
    (∀ from_ message when, (Client.NotifyReceived env c from_ message when w).2.1 = c) ∧
    (∀ (command id : String) (port : Int) (ks : List Call),
      (runCalls env ks (NewClient command id port, w)).1.PortNumber = port ∧
      (runCalls env ks (NewClient command id port, w)).1.Identifier = id ∧
      (runCalls env ks (NewClient command id port, w)).1.executable = command ∧
      joinedUrl (runCalls env ks (NewClient command id port, w)).1.PortNumber =
        joinedUrl port) := by
  refine ⟨fun args => ?_, fun ps => ?_, ?_, fun to_ message => ?_,
    fun from_ message when => ?_, fun command id port ks => ?_⟩
  · rw [Start_eq]
    cases env.startProcess w c.executable (c.executable :: args) <;> rfl
  · rw [NotifyJoined_eq_controlCall, controlCall_handle]
  · rw [Disconnect_eq_controlCall, controlCall_handle]
  · rw [PromptSend_eq_controlCall, controlCall_handle]
  · rw [NotifyReceived_eq_controlCall, controlCall_handle]
  · obtain ⟨h1, h2, h3⟩ := runCalls_frame env ks (NewClient command id port, w)
    exact ⟨h1, h2, h3, by rw [h1]; rfl⟩

/-! ## What is returned to the caller -/

/-- C6, as stated, fails. The listener answers the POST to `/disconnect` with
307 and `Location: /bye`: `Disconnect()` returns the 200 of the request that
follows, not the 307 the transport returned for the request sent. And with
nothing listening the transport fails with `connection refused`: `Disconnect()`
returns that error inside a `*url.Error`, not the error as it is. -/
theorem Disconnect_result_is_not_the_transport_result :
    envRedirecting.newRequestErr "POST" (disconnectUrl alice.PortNumber) = none ∧
    envRedirecting.roundTrip (World.empty.withRequest (specDisconnectRequest alice))
      (specDisconnectRequest alice) = .ok ⟨307, [("Location", "/bye")], ""⟩ ∧
    (Client.Disconnect envRedirecting alice World.empty).1 = (some ⟨200, [], ""⟩, none) ∧
    (Client.Disconnect envRedirecting alice World.empty).1 ≠
      (some ⟨307, [("Location", "/bye")], ""⟩, none) ∧
    envNothingThere.roundTrip (World.empty.withRequest (specDisconnectRequest alice))
      (specDisconnectRequest alice) = .error (.mk "connection refused") ∧
    (Client.Disconnect envNothingThere alice World.empty).1 =
      (none, some (.url "Post" "http://localhost:8080/disconnect" (.mk "connection refused"))) ∧
    (Client.Disconnect envNothingThere alice World.empty).1 ≠
      (none, some (.mk "connection refused")) :=
  ⟨rfl, rfl, rfl, by decide, rfl, rfl, by decide⟩

/-- C6, amended: for each of the four control operations, when encoding and
request construction succeed, the pair returned to the caller is the pair
`client.Do` returned for the request. When the transport answers that request
with a response that is not a redirect with a `Location` (any status but 301,
302, 303, 307, 308, or no `Location`), that response is returned as it is with
no error, whatever its status. When the transport fails on that request, no
response is returned and the error is the error of the transport in a
`*url.Error` with the operation and the URL of the request. -/
theorem control_result_is_the_result_of_Do (env : Env) (c : Client) (w : World) :
    (∀ ps, env.marshalErr (.joined ⟨c.Identifier, ps⟩) = none →
      env.newRequestErr "POST" (joinedUrl c.PortNumber) = none →
      (Client.NotifyJoined env c ps w).1 = (http.Do env (specJoinedRequest c ps) w).1) ∧
    (env.newRequestErr "POST" (disconnectUrl c.PortNumber) = none →
      (Client.Disconnect env c w).1 = (http.Do env (specDisconnectRequest c) w).1) ∧
    (∀ to_ message, env.marshalErr (.prompt ⟨c.Identifier, to_, message⟩) = none →
      env.newRequestErr "POST" (promptUrl c.PortNumber) = none →
      (Client.PromptSend env c to_ message w).1 =
        (http.Do env (specPromptRequest c to_ message) w).1) ∧
    (∀ from_ message when, env.marshalErr (.received ⟨from_, message, when⟩) = none →
      env.newRequestErr "POST" (receivedUrl c.PortNumber) = none →
      (Client.NotifyReceived env c from_ message when w).1 =
        (http.Do env (specReceivedRequest c from_ message when) w).1) ∧
    (∀ (req : http.Request) (resp : http.Response),
      env.roundTrip (w.withRequest req) req = .ok resp →
      http.shouldRedirect resp.StatusCode = false ∨ resp.Header.Get "Location" = "" →
      (http.Do env req w).1 = (some resp, none)) ∧
    (∀ (req : http.Request) (e : Error),
      env.roundTrip (w.withRequest req) req = .error e →
      (http.Do env req w).1 = (none, some (.url (http.urlErrorOp req.Method) req.URL e))) ∧
    (∀ status : Int, http.shouldRedirect status = true ↔
      status = 301 ∨ status = 302 ∨ status = 303 ∨ status = 307 ∨ status = 308) := by
  refine ⟨fun ps hm hr => ?_, fun hr => ?_, fun to_ message hm hr => ?_,
    fun from_ message when hm hr => ?_, fun req resp h hf => ?_, fun req e h => ?_,
    fun status => ?_⟩
  · rw [NotifyJoined_sends env c ps w hm hr]
  · rw [Disconnect_sends env c w hr]
  · rw [PromptSend_sends env c to_ message w hm hr]
  · rw [NotifyReceived_sends env c from_ message when w hm hr]
  · rw [http.Do_of_done env req w _ (http.hop_of_final env req req _ resp h hf)]
  · rw [http.Do_of_done env req w _ (http.hop_of_error env req req _ e h)]
  · simp [http.shouldRedirect, or_assoc]

/-- C6, amended, at the handle `alice`: a 500 answer comes back as it is with no
error, a 404 answer likewise, and with nothing listening the error of the
transport comes back in a `*url.Error` with no response. -/
theorem control_result_is_the_result_of_Do_witness :
    (Client.NotifyJoined (envAnswering 500) alice (some ["bob"]) World.empty).1 =
      (some ⟨500, [], ""⟩, none) ∧
    (Client.PromptSend (envAnswering 404) alice "bob" "hello" World.empty).1 =
      (some ⟨404, [], ""⟩, none) ∧
    (Client.Disconnect envNothingThere alice World.empty).1 =
      (none, some (.url "Post" "http://localhost:8080/disconnect" (.mk "connection refused"))) ∧
    (Client.NotifyReceived envNothingThere alice "bob" "hi" "now" World.empty).1 =
      (none, some (.url "Post" "http://localhost:8080/received" (.mk "connection refused"))) :=
  ⟨((control_result_is_the_result_of_Do (envAnswering 500) alice World.empty).1
        (some ["bob"]) rfl rfl).trans
      ((control_result_is_the_result_of_Do (envAnswering 500) alice World.empty).2.2.2.2.1
        (specJoinedRequest alice (some ["bob"])) ⟨500, [], ""⟩ rfl (Or.inl rfl)),
    ((control_result_is_the_result_of_Do (envAnswering 404) alice World.empty).2.2.1
        "bob" "hello" rfl rfl).trans
      ((control_result_is_the_result_of_Do (envAnswering 404) alice World.empty).2.2.2.2.1
        (specPromptRequest alice "bob" "hello") ⟨404, [], ""⟩ rfl (Or.inl rfl)),
    ((control_result_is_the_result_of_Do envNothingThere alice World.empty).2.1 rfl).trans
      ((control_result_is_the_result_of_Do envNothingThere alice World.empty).2.2.2.2.2.1
        (specDisconnectRequest alice) (.mk "connection refused") rfl),
    ((control_result_is_the_result_of_Do envNothingThere alice World.empty).2.2.2.1
        "bob" "hi" "now" rfl rfl).trans
      ((control_result_is_the_result_of_Do envNothingThere alice World.empty).2.2.2.2.2.1
        (specReceivedRequest alice "bob" "hi" "now") (.mk "connection refused") rfl)⟩

/-! ## How many requests a call makes -/

/-- C10, as stated, fails. The listener answers the POST to `/disconnect` with
307 and `Location: /bye`: the one call `Disconnect()` hands two requests to the
transport. Where the listener answers every request with 302 and a `Location`,
the one call hands ten requests to the transport. -/
theorem Disconnect_hands_over_more_than_one_request :
    envRedirecting.newRequestErr "POST" (disconnectUrl alice.PortNumber) = none ∧
    (Client.Disconnect envRedirecting alice World.empty).2.2.roundTrips =
      [{ Method := "POST", URL := "http://localhost:8080/disconnect", Header := [],
         Body := none },
       { Method := "POST", URL := "http://localhost:8080/bye",
         Header := [("Referer", "http://localhost:8080/disconnect")], Body := none }] ∧
    (Client.Disconnect envRedirecting alice World.empty).2.2.roundTrips.length = 2 ∧
    (Client.Disconnect envLooping alice World.empty).2.2.roundTrips.length = 10 ∧
    (Client.Disconnect envLooping alice World.empty).1 =
      (some ⟨302, [("Location", "/disconnect")], ""⟩,
        some (.url "Post" "/disconnect" (.mk "stopped after 10 redirects"))) :=
  ⟨rfl, rfl, rfl, rfl, rfl⟩

/-- C10, amended: each call of a control operation calls `client.Do` at most
once and never again: exactly once, with the request of the operation, when
encoding and request construction succeed, and not at all when either fails, in
which case the operation returns the error of that failure with no response
and nothing is handed to the transport. One call of `client.Do` hands the
request and at most nine more to the transport, so between one and ten: exactly
one when the transport answers the request with an error or with a response
that is not a redirect with a `Location`, and at least two when it answers with
a redirect with a `Location` whose next request can be built. No process is
spawned. -/
theorem one_Do_per_call (env : Env) (c : Client) (w : World) :
    (∀ ps, Client.NotifyJoined env c ps w =
      controlCall env (env.marshalErr (.joined ⟨c.Identifier, ps⟩))
        (env.newRequestErr "POST" (joinedUrl c.PortNumber)) (specJoinedRequest c ps) c w) ∧
    (Client.Disconnect env c w =
      controlCall env none (env.newRequestErr "POST" (disconnectUrl c.PortNumber))
        (specDisconnectRequest c) c w) ∧
    (∀ to_ message, Client.PromptSend env c to_ message w =
      controlCall env (env.marshalErr (.prompt ⟨c.Identifier, to_, message⟩))
        (env.newRequestErr "POST" (promptUrl c.PortNumber))
        (specPromptRequest c to_ message) c w) ∧
    (∀ from_ message when, Client.NotifyReceived env c from_ message when w =
      controlCall env (env.marshalErr (.received ⟨from_, message, when⟩))
        (env.newRequestErr "POST" (receivedUrl c.PortNumber))
        (specReceivedRequest c from_ message when) c w) ∧
    (∀ (encErr buildErr : Option Error) (req : http.Request),
      (controlCall env encErr buildErr req c w).2.2.requests.length ≤ w.requests.length + 1 ∧
      (controlCall env encErr buildErr req c w).2.2.spawns = w.spawns ∧
      (encErr = none → buildErr = none →
        (controlCall env encErr buildErr req c w).2.2.requests = w.requests ++ [req] ∧
        (controlCall env encErr buildErr req c w).1 = (http.Do env req w).1 ∧
        (controlCall env encErr buildErr req c w).2.2 = (http.Do env req w).2) ∧
      (∀ e, encErr = some e ∨ (encErr = none ∧ buildErr = some e) →
        (controlCall env encErr buildErr req c w).1 = (none, some e) ∧
        (controlCall env encErr buildErr req c w).2.2 = w)) ∧
    (∀ req : http.Request,
      (∃ more, (http.Do env req w).2.roundTrips = w.roundTrips ++ req :: more ∧
        more.length ≤ 9) ∧
      (∀ e, env.roundTrip (w.withRequest req) req = .error e →
        (http.Do env req w).2.roundTrips = w.roundTrips ++ [req]) ∧
      (∀ resp, env.roundTrip (w.withRequest req) req = .ok resp →
        http.shouldRedirect resp.StatusCode = false ∨ resp.Header.Get "Location" = "" →
        (http.Do env req w).2.roundTrips = w.roundTrips ++ [req]) ∧
      (∀ resp next, env.roundTrip (w.withRequest req) req = .ok resp →
        http.shouldRedirect resp.StatusCode = true → resp.Header.Get "Location" ≠ "" →
        env.nextHop req req resp = .ok next →
        ∃ more, (http.Do env req w).2.roundTrips = w.roundTrips ++ req :: next :: more)) := by
  refine ⟨fun ps => NotifyJoined_eq_controlCall env c ps w, Disconnect_eq_controlCall env c w,
    fun to_ message => PromptSend_eq_controlCall env c to_ message w,
    fun from_ message when => NotifyReceived_eq_controlCall env c from_ message when w,
    fun encErr buildErr req =>
      ⟨?_, controlCall_spawns env encErr buildErr req c w, ?_, ?_⟩,
    fun req => ⟨http.Do_roundTrips env req w, fun e h => ?_, fun resp h hf => ?_,
      fun resp next h hs hl hn => ?_⟩⟩
  · rcases controlCall_requests env encErr buildErr req c w with h | h <;> rw [h] <;> simp
  · rintro rfl rfl
    exact ⟨http.Do_requests env req w, rfl, rfl⟩
  · rintro e (rfl | ⟨rfl, rfl⟩)
    · exact ⟨rfl, rfl⟩
    · exact ⟨rfl, rfl⟩
  · rw [http.Do_of_done env req w _ (http.hop_of_error env req req _ e h)]
  · rw [http.Do_of_done env req w _ (http.hop_of_final env req req _ resp h hf)]
  · exact http.Do_of_redirect env req w resp _ next
      (http.hop_of_redirect env req req _ resp next h hs hl hn)

/-- C10, amended, at the handle `alice`: where the encoding fails and where the
request construction fails, the error comes back and the world is untouched;
where both succeed and nothing listens, `client.Do` was called once and handed
one request to the transport. -/
theorem one_Do_per_call_witness :
    (Client.PromptSend envNoEncoding alice "bob" "hello" World.empty) =
      ((none, some (.mk "json: unsupported value")), alice, World.empty) ∧
    (Client.Disconnect envNoRequest alice World.empty) =
      ((none, some (.mk "invalid port")), alice, World.empty) ∧
    (controlCall envNoRequest none (some (.mk "invalid port"))
      (specDisconnectRequest alice) alice World.empty).2.2 = World.empty ∧
    (Client.Disconnect envNothingThere alice World.empty).2.2.requests =
      [⟨"POST", "http://localhost:8080/disconnect", [], none⟩] ∧
    (http.Do envNothingThere (specDisconnectRequest alice) World.empty).2.roundTrips =
      [⟨"POST", "http://localhost:8080/disconnect", [], none⟩] ∧
    (http.Do (envAnswering 500) (specDisconnectRequest alice) World.empty).2.roundTrips =
      [⟨"POST", "http://localhost:8080/disconnect", [], none⟩] :=
  ⟨(one_Do_per_call envNoEncoding alice World.empty).2.2.1 "bob" "hello",
    (one_Do_per_call envNoRequest alice World.empty).2.1,
    (((one_Do_per_call envNoRequest alice World.empty).2.2.2.2.1 none
      (some (.mk "invalid port")) (specDisconnectRequest alice)).2.2.2
      (.mk "invalid port") (Or.inr ⟨rfl, rfl⟩)).2,
    (congrArg (fun r => r.2.2.requests)
      (one_Do_per_call envNothingThere alice World.empty).2.1).trans
      ((((one_Do_per_call envNothingThere alice World.empty).2.2.2.2.1 none none
        (specDisconnectRequest alice)).2.2.1 rfl rfl).1),
    ((one_Do_per_call envNothingThere alice World.empty).2.2.2.2.2
      (specDisconnectRequest alice)).2.1 (.mk "connection refused") rfl,
    ((one_Do_per_call (envAnswering 500) alice World.empty).2.2.2.2.2
      (specDisconnectRequest alice)).2.2.1 ⟨500, [], ""⟩ rfl (Or.inl rfl)⟩

end clients
